import Mathlib

/-!
Shallow embedding of the VectorStudio vector-graphics editor core
(src/types/index.ts, src/hooks/useCanvas.ts, src/components/Canvas.tsx,
src/components/PropertiesPanel.tsx, src/components/MenuBar.tsx,
src/utils/geometry.ts) together with proofs about the spec's claims.

Numbers are modelled as exact rationals (ℚ): the code performs only
field arithmetic (+, -, *, /, min, max, abs) on its coordinates.
JavaScript `undefined`-able fields are modelled with `Option`.
-/

namespace VectorStudio

/-- A 2D point, as in `Point` of src/types/index.ts. -/
structure Point where
  x : ℚ
  y : ℚ
deriving DecidableEq

/-- Axis-aligned bounding box, as in `BoundingBox` of src/types/index.ts. -/
structure BoundingBox where
  x : ℚ
  y : ℚ
  width : ℚ
  height : ℚ
deriving DecidableEq

/-- Object transform, as in `Transform` of src/types/index.ts. -/
structure Transform where
  x : ℚ
  y : ℚ
  rotation : ℚ
  scaleX : ℚ
  scaleY : ℚ
deriving DecidableEq

/-- One gradient stop, as in `GradientStop` of src/types/index.ts. -/
structure GradientStop where
  offset : ℚ
  color : String
  opacity : ℚ
deriving DecidableEq

/-- Gradient kind discriminator (`'linear' | 'radial'`). -/
inductive GradientKind
  | linear
  | radial
deriving DecidableEq

/-- A gradient, as in `Gradient` of src/types/index.ts. -/
structure Gradient where
  kind : GradientKind
  stops : List GradientStop
  angle : Option ℚ
deriving DecidableEq

/-- Style record, as in `StyleProperties` of src/types/index.ts. -/
structure StyleProperties where
  fill : String
  stroke : String
  strokeWidth : ℚ
  opacity : ℚ
  fillOpacity : ℚ
  strokeOpacity : ℚ
  gradient : Option Gradient
deriving DecidableEq

/-- The per-variant payload of the `CanvasObject` tagged union of
src/types/index.ts (Rect/Circle/Path/Curve/Text/Line/Image). -/
inductive Shape
  | rect (width height : ℚ) (rx ry : Option ℚ)
  | circle (radius : ℚ)
  | path (points : List Point) (closed : Bool)
  | curve (points : List Point) (controlPoints : List Point) (closed : Bool)
  | text (content : String) (fontSize : ℚ) (fontFamily fontWeight : String)
  | line (x1 y1 x2 y2 : ℚ)
  | image (src : String) (width height originalWidth originalHeight : ℚ)
deriving DecidableEq

/-- A drawable object: the `BaseObject` fields shared by every variant of
`CanvasObject` in src/types/index.ts, plus the variant payload. -/
structure CanvasObject where
  id : String
  shape : Shape
  transform : Transform
  style : StyleProperties
  visible : Bool
  locked : Bool
  selected : Bool
deriving DecidableEq

/-- A layer, as in `Layer` of src/types/index.ts. -/
structure Layer where
  id : String
  name : String
  visible : Bool
  locked : Bool
  objects : List CanvasObject
deriving DecidableEq

/-- Canvas pixel dimensions (`canvasSize` field). -/
structure Size where
  width : ℚ
  height : ℚ
deriving DecidableEq

/-- The closed set of tool identifiers, as in `Tool` of src/types/index.ts. -/
inductive Tool
  | select
  | pen
  | curve
  | rect
  | circle
  | ellipse
  | line
  | text
  | brush
  | eyedropper
  | zoom
  | hand
  | polygon
  | star
  | triangle
  | eraser
deriving DecidableEq

/-- The Document, as in `CanvasState` of src/types/index.ts. -/
structure CanvasState where
  layers : List Layer
  activeLayerId : String
  selectedObjectIds : List String
  zoom : ℚ
  pan : Point
  tool : Tool
  canvasSize : Size
deriving DecidableEq

/-- The history triple, as in `HistoryState` of src/types/index.ts. -/
structure HistoryState where
  past : List CanvasState
  present : CanvasState
  future : List CanvasState
deriving DecidableEq

/-- The initial Document, from `createInitialState` in src/hooks/useCanvas.ts. -/
def createInitialState : CanvasState :=
  { layers := [{ id := "layer-1", name := "Layer 1", visible := true,
                 locked := false, objects := [] }]
    activeLayerId := "layer-1"
    selectedObjectIds := []
    zoom := 1
    pan := ⟨100, 100⟩
    tool := Tool.select
    canvasSize := ⟨4000, 4000⟩ }

/-- The initial history held by the `useCanvas` hook. -/
def initialHistory : HistoryState :=
  { past := [], present := createInitialState, future := [] }

/-- Commit, from `pushToHistory` in src/hooks/useCanvas.ts: the new past is
`[...prev.past.slice(-50), prev.present]` (the last 50 old entries followed by
the old present), the new state becomes present, and the future is cleared.
`List.drop (l.length - 50) l` is exactly `l.slice(-50)` for a JS array. -/
def pushToHistory (h : HistoryState) (newState : CanvasState) : HistoryState :=
  { past := h.past.drop (h.past.length - 50) ++ [h.present]
    present := newState
    future := [] }

/-- Undo, from `undo` in src/hooks/useCanvas.ts: no-op on empty past, else the
last past entry becomes present and the old present is consed onto
`future.slice(0, 49)`. -/
def undo (h : HistoryState) : HistoryState :=
  match h.past.getLast? with
  | none => h
  | some previous =>
      { past := h.past.dropLast
        present := previous
        future := h.present :: h.future.take 49 }

/-- Redo, from `redo` in src/hooks/useCanvas.ts: no-op on empty future, else
the first future entry becomes present and the old present is appended to the
past (with no cap applied). -/
def redo (h : HistoryState) : HistoryState :=
  match h.future with
  | [] => h
  | next :: rest =>
      { past := h.past ++ [h.present]
        present := next
        future := rest }

/-- Derived flag `canUndo` from src/hooks/useCanvas.ts. -/
def canUndo (h : HistoryState) : Bool :=
  h.past.length > 0

/-- Derived flag `canRedo` from src/hooks/useCanvas.ts. -/
def canRedo (h : HistoryState) : Bool :=
  h.future.length > 0

/-- `setTool` from src/hooks/useCanvas.ts: replaces the present only,
setting the tool and clearing the selection. -/
def setTool (h : HistoryState) (tool : Tool) : HistoryState :=
  { h with present := { h.present with tool := tool, selectedObjectIds := [] } }

/-- `selectObjects` from src/hooks/useCanvas.ts: replaces the present only. -/
def selectObjects (h : HistoryState) (objectIds : List String) : HistoryState :=
  { h with present := { h.present with selectedObjectIds := objectIds } }

/-- `setZoom` from src/hooks/useCanvas.ts: replaces the present only,
clamping the zoom to [0.1, 5]. -/
def setZoom (h : HistoryState) (zoom : ℚ) : HistoryState :=
  { h with present := { h.present with zoom := max (1/10) (min 5 zoom) } }

/-- `setPan` from src/hooks/useCanvas.ts: replaces the present only. -/
def setPan (h : HistoryState) (pan : Point) : HistoryState :=
  { h with present := { h.present with pan := pan } }

/-- A `Partial<CanvasObject>` argument as used by `updateObject`: each
top-level field that the callers of this repository pass may be present or
absent. A present `transform` or `style` is a complete record, exactly as in
`Partial<CanvasObject>` (the spread `{ ...obj, ...updates }` replaces the
whole nested record when the field is present). -/
structure ObjectUpdates where
  transform : Option Transform
  style : Option StyleProperties
  visible : Option Bool
deriving DecidableEq

/-- The shallow spread `{ ...obj, ...updates }` performed by `updateObject`
in src/hooks/useCanvas.ts: a present field replaces the old value wholesale,
an absent field keeps it. -/
def applyUpdates (obj : CanvasObject) (u : ObjectUpdates) : CanvasObject :=
  { obj with
    transform := u.transform.getD obj.transform
    style := u.style.getD obj.style
    visible := u.visible.getD obj.visible }

/-- `updateObject` from src/hooks/useCanvas.ts, acting on the Document: every
layer is mapped, and within it the object whose id matches receives the
shallow merge; all other objects are untouched. (In the hook this replaces
only `present`, leaving the history stacks alone.) -/
def updateObject (s : CanvasState) (objectId : String) (u : ObjectUpdates) :
    CanvasState :=
  { s with layers := s.layers.map fun layer =>
      { layer with objects := layer.objects.map fun obj =>
          if obj.id = objectId then applyUpdates obj u else obj } }

/-- An object before `addObject` assigns it an id (`Omit<CanvasObject, 'id'>`). -/
structure PendingObject where
  shape : Shape
  transform : Transform
  style : StyleProperties
  visible : Bool
  locked : Bool
  selected : Bool
deriving DecidableEq

/-- `addObject` from src/hooks/useCanvas.ts: assigns the id `obj-N` from the
counter, no-ops when the active layer cannot be found, otherwise appends the
object to the active layer, selects it, and commits via `pushToHistory`. -/
def addObject (h : HistoryState) (nextObjectId : ℕ) (p : PendingObject) :
    HistoryState :=
  let newObject : CanvasObject :=
    { id := "obj-" ++ toString nextObjectId
      shape := p.shape, transform := p.transform, style := p.style
      visible := p.visible, locked := p.locked, selected := p.selected }
  match h.present.layers.find? (fun l => l.id = h.present.activeLayerId) with
  | none => h
  | some _ =>
      let newLayers := h.present.layers.map fun layer =>
        if layer.id = h.present.activeLayerId
        then { layer with objects := layer.objects ++ [newObject] }
        else layer
      pushToHistory h
        { h.present with layers := newLayers
                         selectedObjectIds := [newObject.id] }

/-- `deleteLayer` from src/hooks/useCanvas.ts: rejected as a no-op when at
most one layer exists; otherwise filters the layer out, repairs the active
layer id, and commits. (When the filter empties the list, the source line
`newLayers[0].id` would fault on `undefined`; that unreachable-by-unique-ids
case is modelled with a `""` fallback id.) -/
def deleteLayer (h : HistoryState) (layerId : String) : HistoryState :=
  if h.present.layers.length ≤ 1 then h
  else
    let newLayers := h.present.layers.filter fun l => ¬ l.id = layerId
    let newActiveLayerId :=
      if layerId = h.present.activeLayerId
      then ((newLayers.head?).map Layer.id).getD ""
      else h.present.activeLayerId
    pushToHistory h
      { h.present with layers := newLayers, activeLayerId := newActiveLayerId }

/-- The `'up' | 'down'` direction argument of `moveLayer`. -/
inductive MoveDir
  | up
  | down
deriving DecidableEq

/-- The target index `currentIndex - 1` (up) or `currentIndex + 1` (down)
computed by `moveLayer`; an integer because JS lets it go negative. -/
def moveTargetIndex (direction : MoveDir) (currentIndex : ℕ) : ℤ :=
  match direction with
  | MoveDir.up => (currentIndex : ℤ) - 1
  | MoveDir.down => (currentIndex : ℤ) + 1

/-- `moveLayer` from src/hooks/useCanvas.ts: no-op when the layer id is not
found or the target index is out of range; otherwise splices the layer from
its current index to the adjacent index and commits. -/
def moveLayer (h : HistoryState) (layerId : String) (direction : MoveDir) :
    HistoryState :=
  match h.present.layers.findIdx? (fun l => l.id = layerId) with
  | none => h
  | some currentIndex =>
      let newIndex : ℤ := moveTargetIndex direction currentIndex
      if newIndex < 0 ∨ (h.present.layers.length : ℤ) ≤ newIndex then h
      else
        match h.present.layers[currentIndex]? with
        | none => h
        | some movedLayer =>
            let spliced := h.present.layers.eraseIdx currentIndex
            let newLayers := spliced.insertIdx newIndex.toNat movedLayer
            pushToHistory h { h.present with layers := newLayers }

/-- The fields of the saved project JSON that `loadProject` consumes; absent
fields are `none` (the unused metadata fields `version`, `application`,
`created`, `timestamp` written by `handleSave` are ignored by `loadProject`
and not modelled). -/
structure ProjectData where
  layers : Option (List Layer)
  activeLayerId : Option String
  canvasSize : Option Size
deriving DecidableEq

/-- `handleSave` from the MenuBar component: the payload carries the layers
and the canvas size verbatim; it does not carry `activeLayerId` nor any of
selection, zoom, tool, or pan. -/
def handleSave (layers : List Layer) (canvasSize : Size) : ProjectData :=
  { layers := some layers
    activeLayerId := none
    canvasSize := some canvasSize }

/-- `loadProject` from src/hooks/useCanvas.ts: builds a fresh present from the
data with fallbacks (`data.layers || createInitialState().layers`,
`data.activeLayerId || data.layers?.[0]?.id || 'layer-1'`,
`data.canvasSize || {4000, 4000}`), resets selection, zoom, pan and tool to
their defaults, and installs a history with both stacks empty. -/
def loadProject (data : ProjectData) : HistoryState :=
  let newState : CanvasState :=
    { layers := data.layers.getD createInitialState.layers
      activeLayerId :=
        data.activeLayerId.getD
          (((data.layers.bind List.head?).map Layer.id).getD "layer-1")
      selectedObjectIds := []
      zoom := 1
      pan := ⟨100, 100⟩
      tool := Tool.select
      canvasSize := data.canvasSize.getD ⟨4000, 4000⟩ }
  { past := [], present := newState, future := [] }

/-- `allObjects` from App.tsx: `state.layers.flatMap(layer => layer.objects)`. -/
def allObjects (s : CanvasState) : List CanvasObject :=
  s.layers.flatMap Layer.objects

/-- The `selectedObjects` prop computed in App.tsx:
`allObjects.filter(obj => state.selectedObjectIds.includes(obj.id))`. -/
def selectedObjectsOf (s : CanvasState) : List CanvasObject :=
  (allObjects s).filter fun obj => obj.id ∈ s.selectedObjectIds

/-- The `updateStyle('opacity', value)` flow of the PropertiesPanel as the
program executes it. `selectedObjects.forEach` calls
`onUpdateObject(obj.id, { style: { ...obj.style, opacity: value } })` once
per selected object within a single event tick, but the hook's
`updateObject` computes its `newState` from the render-time closure `state`
— the SAME stale Document for every call — and each queued
`setHistory(prev => ({ ...prev, present: newState }))` overwrites the
present installed by the previous call wholesale. The present after the
event is therefore the state computed by the LAST selected object's call
(the original state when the selection is empty): the fold's accumulator is
discarded and every step reads the stale `s`. -/
def updateStyleOpacity (s : CanvasState) (selected : List CanvasObject)
    (value : ℚ) : CanvasState :=
  selected.foldl
    (fun _ obj =>
      updateObject s obj.id
        { transform := none
          style := some { obj.style with opacity := value }
          visible := none })
    s

/-- One SVG path command, abstracting the path-string fragments
(`M x y`, `L x y`, `C c1x c1y, c2x c2y, x y`) emitted by
`generateSmoothCurve` in src/components/Canvas.tsx. -/
inductive PathCmd
  | moveTo (p : Point)
  | lineTo (p : Point)
  | curveTo (cp1 cp2 p : Point)
deriving DecidableEq

/-- The fallback origin used when an index is out of range (never reached by
the source's guards, present to keep list indexing total). -/
def originPoint : Point := ⟨0, 0⟩

/-- `generateSmoothCurve` from src/components/Canvas.tsx (Catmull-Rom): empty
for fewer than 2 points; a move plus a line for exactly 2; otherwise a move
followed by one cubic segment per loop index `i = 0 .. n-2`, accumulated in
source order. `points[i-1] || points[i]` evaluates to `points[i]` exactly
when `i = 0`, which is also the value Nat subtraction gives there;
`points[i+2] || points[i+1]` is the `getD` fallback. -/
def generateSmoothCurve (points : List Point) : List PathCmd :=
  if points.length < 2 then []
  else if points.length = 2 then
    [PathCmd.moveTo (points.getD 0 originPoint),
     PathCmd.lineTo (points.getD 1 originPoint)]
  else
    (List.range (points.length - 1)).foldl
      (fun path i =>
        path ++
          [PathCmd.curveTo
            ⟨(points.getD i originPoint).x +
                ((points.getD (i + 1) originPoint).x -
                  (points.getD (i - 1) originPoint).x) / 6,
              (points.getD i originPoint).y +
                ((points.getD (i + 1) originPoint).y -
                  (points.getD (i - 1) originPoint).y) / 6⟩
            ⟨(points.getD (i + 1) originPoint).x -
                ((points.getD (i + 2) (points.getD (i + 1) originPoint)).x -
                  (points.getD i originPoint).x) / 6,
              (points.getD (i + 1) originPoint).y -
                ((points.getD (i + 2) (points.getD (i + 1) originPoint)).y -
                  (points.getD i originPoint).y) / 6⟩
            (points.getD (i + 1) originPoint)])
      [PathCmd.moveTo (points.getD 0 originPoint)]

/-- The Catmull-Rom walk exactly as the spec's sentence words it: for
`i = 0 .. n-2`, `p0 = point[i-1]` (or `point[i]` if `i = 0`),
`p1 = point[i]`, `p2 = point[i+1]`, `p3 = point[i+2]` (or `point[i+1]` if out
of range), one cubic from `p1` to `p2` with `cp1 = p1 + (p2-p0)/6` and
`cp2 = p2 - (p3-p1)/6`; a single line for exactly 2 points, nothing for
fewer. Stated from the spec's words for comparison with the source
function. -/
def smoothCurveSpec (points : List Point) : List PathCmd :=
  if points.length < 2 then []
  else if points.length = 2 then
    [PathCmd.moveTo (points.getD 0 originPoint),
     PathCmd.lineTo (points.getD 1 originPoint)]
  else
    PathCmd.moveTo (points.getD 0 originPoint) ::
      (List.range (points.length - 1)).map (fun i =>
        PathCmd.curveTo
          ⟨(points.getD i originPoint).x +
              ((points.getD (i + 1) originPoint).x -
                ((if i = 0 then points.getD i originPoint
                  else points.getD (i - 1) originPoint)).x) / 6,
            (points.getD i originPoint).y +
              ((points.getD (i + 1) originPoint).y -
                ((if i = 0 then points.getD i originPoint
                  else points.getD (i - 1) originPoint)).y) / 6⟩
          ⟨(points.getD (i + 1) originPoint).x -
              (((if i + 2 < points.length then points.getD (i + 2) originPoint
                 else points.getD (i + 1) originPoint)).x -
                (points.getD i originPoint).x) / 6,
            (points.getD (i + 1) originPoint).y -
              (((if i + 2 < points.length then points.getD (i + 2) originPoint
                 else points.getD (i + 1) originPoint)).y -
                (points.getD i originPoint).y) / 6⟩
          (points.getD (i + 1) originPoint))

/-- `getBoundingBox` from src/utils/geometry.ts, case by variant. Rect/Image
scale width/height and sit at the transform's translation; Circle uses
`radius * max(scaleX, scaleY)` centred at the translation; Line and
Path/Curve take min/max of their points offset by the translation; Text uses
the `0.6 * fontSize` width approximation with vertical centring; an empty
point list yields a zero-size box at the origin of the transform. -/
def getBoundingBox (obj : CanvasObject) : BoundingBox :=
  let t := obj.transform
  match obj.shape with
  | Shape.rect width height _ _ =>
      ⟨t.x, t.y, width * t.scaleX, height * t.scaleY⟩
  | Shape.circle radius =>
      let r := radius * max t.scaleX t.scaleY
      ⟨t.x - r, t.y - r, r * 2, r * 2⟩
  | Shape.line x1 y1 x2 y2 =>
      ⟨min x1 x2 + t.x, min y1 y2 + t.y, max x1 x2 - min x1 x2,
       max y1 y2 - min y1 y2⟩
  | Shape.path points _ =>
      match points with
      | [] => ⟨t.x, t.y, 0, 0⟩
      | q :: qs =>
          let minPX := (qs.map Point.x).foldl min q.x
          let maxPX := (qs.map Point.x).foldl max q.x
          let minPY := (qs.map Point.y).foldl min q.y
          let maxPY := (qs.map Point.y).foldl max q.y
          ⟨minPX + t.x, minPY + t.y, maxPX - minPX, maxPY - minPY⟩
  | Shape.curve points _ _ =>
      match points with
      | [] => ⟨t.x, t.y, 0, 0⟩
      | q :: qs =>
          let minPX := (qs.map Point.x).foldl min q.x
          let maxPX := (qs.map Point.x).foldl max q.x
          let minPY := (qs.map Point.y).foldl min q.y
          let maxPY := (qs.map Point.y).foldl max q.y
          ⟨minPX + t.x, minPY + t.y, maxPX - minPX, maxPY - minPY⟩
  | Shape.text content fontSize _ _ =>
      ⟨t.x, t.y - fontSize / 2, (content.length : ℚ) * fontSize * (6 / 10),
       fontSize⟩
  | Shape.image _ width height _ _ =>
      ⟨t.x, t.y, width * t.scaleX, height * t.scaleY⟩

/-- The running `minX/minY/maxX/maxY` bounds of `updateCanvasSize`. -/
structure Bounds where
  minX : ℚ
  minY : ℚ
  maxX : ℚ
  maxY : ℚ
deriving DecidableEq

/-- `updateCanvasSize` from src/components/Canvas.tsx: starting from the
bounds `(0, 0, 4000, 4000)`, widen by each visible object's bounding box
padded by 100 and by each live drawing point padded by 100, pad the result by
500 overall, take each dimension to be at least 4000, and replace the stored
size whenever the computed width exceeds the stored width OR the computed
height exceeds the stored height (both dimensions are replaced then). -/
def updateCanvasSize (objects : List CanvasObject) (pointsToCheck : List Point)
    (canvasSize : Size) : Size :=
  let b0 : Bounds := ⟨0, 0, 4000, 4000⟩
  let b1 := objects.foldl
    (fun (b : Bounds) obj =>
      if obj.visible = false then b
      else
        let bbox := getBoundingBox obj
        ⟨min b.minX (bbox.x - 100), min b.minY (bbox.y - 100),
         max b.maxX (bbox.x + bbox.width + 100),
         max b.maxY (bbox.y + bbox.height + 100)⟩)
    b0
  let b2 := pointsToCheck.foldl
    (fun (b : Bounds) p =>
      ⟨min b.minX (p.x - 100), min b.minY (p.y - 100),
       max b.maxX (p.x + 100), max b.maxY (p.y + 100)⟩)
    b1
  let padding : ℚ := 500
  let requiredMinX := b2.minX - padding
  let requiredMinY := b2.minY - padding
  let requiredMaxX := b2.maxX + padding
  let requiredMaxY := b2.maxY + padding
  let newWidth := max 4000 (requiredMaxX - requiredMinX)
  let newHeight := max 4000 (requiredMaxY - requiredMinY)
  if canvasSize.width < newWidth ∨ canvasSize.height < newHeight
  then ⟨newWidth, newHeight⟩
  else canvasSize

/-- The committed style of a shape-tool mouse-up in src/components/Canvas.tsx
(the `baseStyle` of the commit branch). -/
def commitBaseStyle : StyleProperties :=
  { fill := "#3B82F6", stroke := "#1E40AF", strokeWidth := 2, opacity := 1,
    fillOpacity := 1, strokeOpacity := 1, gradient := none }

/-- The rect branch of `handleMouseUp` in src/components/Canvas.tsx: with the
drawing anchor `start` and the mouse-up point `finish`, the gesture commits a
Rect exactly when `width > 5 || height > 5`, placed at the min corner with
the absolute width/height; otherwise it is discarded. -/
def rectMouseUp (start finish : Point) : Option PendingObject :=
  if 5 < |finish.x - start.x| ∨ 5 < |finish.y - start.y| then
    some { shape := Shape.rect |finish.x - start.x| |finish.y - start.y|
             none none
           transform := ⟨min finish.x start.x, min finish.y start.y, 0, 1, 1⟩
           style := commitBaseStyle
           visible := true, locked := false, selected := false }
  else none

/-- A rect-tool gesture end to end: `handleMouseUp` either discards (history
untouched) or hands the built object to `onAddObject` (the hook's
`addObject`). -/
def handleMouseUpRect (h : HistoryState) (nextObjectId : ℕ)
    (start finish : Point) : HistoryState :=
  match rectMouseUp start finish with
  | none => h
  | some p => addObject h nextObjectId p

/-- A history-touching operation of the History Engine, for stating
invariants over every reachable history state. -/
inductive HistoryOp
  | commit (d : CanvasState)
  | undoOp
  | redoOp
deriving DecidableEq

/-- Apply one history operation. -/
def applyHistoryOp (h : HistoryState) (op : HistoryOp) : HistoryState :=
  match op with
  | HistoryOp.commit d => pushToHistory h d
  | HistoryOp.undoOp => undo h
  | HistoryOp.redoOp => redo h

/-- Apply a sequence of history operations from a starting history. -/
def applyHistoryOps (h : HistoryState) (ops : List HistoryOp) : HistoryState :=
  ops.foldl applyHistoryOp h

/-- Iterated commits of the initial state onto the initial history, used to
exhibit how long the past stack can actually grow. -/
def commitN : ℕ → HistoryState
  | 0 => initialHistory
  | n + 1 => pushToHistory (commitN n) createInitialState

/-! ## Theorems about the claims -/

/-- C1: for any history whose present is the Document D, committing a new
Document D' and then undoing yields a present structurally equal to D, and
redoing after that undo yields a present structurally equal to D' again. -/
theorem C1_commit_undo_redo_roundtrip (h : HistoryState) (d' : CanvasState) :
    (undo (pushToHistory h d')).present = h.present ∧
    (redo (undo (pushToHistory h d'))).present = d' := by
  have hlast : (pushToHistory h d').past.getLast? = some h.present := by
    simp [pushToHistory]
  have hundo : undo (pushToHistory h d') =
      { past := (pushToHistory h d').past.dropLast
        present := h.present
        future := [d'] } := by
    unfold undo
    rw [hlast]
    simp [pushToHistory]
  refine ⟨by rw [hundo], ?_⟩
  rw [hundo]
  rfl

/-- C5: the non-committing operations setTool, selectObjects, setZoom and
setPan replace only the present Document; the past and future history stacks
are exactly unchanged by each of them. -/
theorem C5_noncommitting_preserve_stacks (h : HistoryState) (tool : Tool)
    (ids : List String) (z : ℚ) (p : Point) :
    (setTool h tool).past = h.past ∧ (setTool h tool).future = h.future ∧
    (selectObjects h ids).past = h.past ∧
    (selectObjects h ids).future = h.future ∧
    (setZoom h z).past = h.past ∧ (setZoom h z).future = h.future ∧
    (setPan h p).past = h.past ∧ (setPan h p).future = h.future := by
  simp [setTool, selectObjects, setZoom, setPan]

/-- C9: serializing a Document to the document-JSON payload (layers and
canvas size) and reloading it via loadProject reproduces the layers — hence
every object id, type, and field value in its layer — verbatim, while
selection, zoom, tool and pan are reset to their defaults. -/
theorem C9_save_load_roundtrip (s : CanvasState) :
    ((loadProject (handleSave s.layers s.canvasSize)).present.layers =
        s.layers) ∧
    (loadProject (handleSave s.layers s.canvasSize)).present.selectedObjectIds
        = [] ∧
    (loadProject (handleSave s.layers s.canvasSize)).present.zoom = 1 ∧
    (loadProject (handleSave s.layers s.canvasSize)).present.tool =
        Tool.select ∧
    (loadProject (handleSave s.layers s.canvasSize)).present.pan =
        ⟨100, 100⟩ ∧
    (loadProject (handleSave s.layers s.canvasSize)).present.canvasSize =
        s.canvasSize := by
  simp [loadProject, handleSave]

/-- C10: after loadProject on any input data, both history stacks are empty —
canUndo and canRedo are false — and undo is a no-op, so the Document present
before loading can never be recovered by undo. -/
theorem C10_load_clears_history (data : ProjectData) :
    canUndo (loadProject data) = false ∧
    canRedo (loadProject data) = false ∧
    undo (loadProject data) = loadProject data ∧
    redo (loadProject data) = loadProject data := by
  refine ⟨rfl, rfl, ?_, rfl⟩
  unfold undo loadProject
  rfl

/-- The size invariant the History Engine actually maintains: the two stacks
together never hold more than 51 snapshots, and the future never more
than 50. -/
def historyInv (h : HistoryState) : Prop :=
  h.past.length + h.future.length ≤ 51 ∧ h.future.length ≤ 50

theorem historyInv_initial : historyInv initialHistory := by
  constructor <;> simp [initialHistory]

theorem historyInv_step (h : HistoryState) (op : HistoryOp)
    (hinv : historyInv h) : historyInv (applyHistoryOp h op) := by
  obtain ⟨hsum, hfut⟩ := hinv
  cases op with
  | commit d =>
      constructor <;>
        simp only [applyHistoryOp, pushToHistory, List.length_append,
          List.length_drop, List.length_cons, List.length_nil] <;> omega
  | undoOp =>
      simp only [applyHistoryOp, undo]
      cases hp : h.past.getLast? with
      | none => exact ⟨hsum, hfut⟩
      | some previous =>
          have hne : h.past ≠ [] := by
            intro he
            rw [he] at hp
            simp at hp
          have hpos : 1 ≤ h.past.length := List.length_pos.mpr hne
          have htk : (h.future.take 49).length ≤ h.future.length :=
            (List.length_take 49 h.future) ▸ Nat.min_le_right 49 _
          have htk49 : (h.future.take 49).length ≤ 49 :=
            (List.length_take 49 h.future) ▸ Nat.min_le_left 49 _
          constructor <;>
            simp only [List.length_dropLast, List.length_cons] <;> omega
  | redoOp =>
      simp only [applyHistoryOp, redo]
      cases hf : h.future with
      | nil => exact ⟨hsum, hfut⟩
      | cons next rest =>
          rw [hf] at hsum hfut
          simp only [List.length_cons] at hsum hfut
          constructor <;> simp only [List.length_append, List.length_cons,
            List.length_nil] <;> omega

theorem historyInv_reachable (ops : List HistoryOp) :
    historyInv (applyHistoryOps initialHistory ops) := by
  suffices hgen : ∀ (h : HistoryState), historyInv h →
      historyInv (applyHistoryOps h ops) from
    hgen initialHistory historyInv_initial
  induction ops with
  | nil => exact fun h hh => hh
  | cons op rest ih =>
      intro h hh
      exact ih (applyHistoryOp h op) (historyInv_step h op hh)

set_option maxRecDepth 4000 in
/-- C2 counterexample: 51 consecutive commits from the initial state leave a
reachable history whose past stack holds 51 snapshots, exceeding the claimed
bound of 50 (`past.slice(-50)` keeps 50 old entries and `pushToHistory` then
appends the previous present on top of them). -/
theorem C2_counterexample :
    commitN 51 =
      applyHistoryOps initialHistory
        (List.replicate 51 (HistoryOp.commit createInitialState)) ∧
    50 < (commitN 51).past.length := by
  constructor
  · rfl
  · decide

/-- C2 amended: in every history state reachable by commit, undo and redo
from the initial state, the past stack holds at most 51 snapshots (not 50)
and the future stack at most 50; a commit performed when the past stack is at
its 51-entry cap drops the single oldest past entry and keeps the newest
ones, appending the outgoing present. -/
theorem C2_amended_history_bounds (ops : List HistoryOp) (h : HistoryState)
    (d : CanvasState) :
    (applyHistoryOps initialHistory ops).past.length ≤ 51 ∧
    (applyHistoryOps initialHistory ops).future.length ≤ 50 ∧
    (h.past.length = 51 →
      (pushToHistory h d).past = h.past.drop 1 ++ [h.present] ∧
      (pushToHistory h d).past.length = 51) := by
  obtain ⟨hsum, hfut⟩ := historyInv_reachable ops
  refine ⟨by omega, hfut, ?_⟩
  intro hcap
  constructor
  · simp [pushToHistory, hcap]
  · simp [pushToHistory, hcap]

/-- Witness for the amended C2 at concrete inputs: the empty operation list,
and a history whose past stack holds exactly 51 snapshots. -/
theorem C2_amended_history_bounds_witness :
    (applyHistoryOps initialHistory []).past.length ≤ 51 ∧
    (pushToHistory
        { past := List.replicate 51 createInitialState
          present := createInitialState
          future := [] } createInitialState).past =
      (List.replicate 51 createInitialState).drop 1 ++ [createInitialState] :=
  ⟨(C2_amended_history_bounds []
      { past := List.replicate 51 createInitialState
        present := createInitialState
        future := [] } createInitialState).1,
   ((C2_amended_history_bounds []
      { past := List.replicate 51 createInitialState
        present := createInitialState
        future := [] } createInitialState).2.2 (by simp)).1⟩

theorem length_le_filter_id_ne (lid : String) (l : List Layer)
    (hnodup : (l.map Layer.id).Nodup) :
    l.length ≤ (l.filter fun a => ¬ a.id = lid).length + 1 := by
  induction l with
  | nil => simp
  | cons a t ih =>
      simp only [List.map_cons, List.nodup_cons] at hnodup
      obtain ⟨hnotin, hnd⟩ := hnodup
      have iht := ih hnd
      rw [List.filter_cons]
      by_cases hal : a.id = lid
      · have hcond : (decide ¬a.id = lid) = false := by simp [hal]
        rw [hcond]
        have hkeep : t.filter (fun b => decide ¬b.id = lid) = t := by
          apply List.filter_eq_self.mpr
          intro b hb
          simp only [decide_eq_true_eq]
          intro heq
          apply hnotin
          rw [hal, ← heq]
          exact List.mem_map_of_mem Layer.id hb
        rw [if_neg (by simp), hkeep]
        simp
      · have hcond : (decide ¬a.id = lid) = true := by simp [hal]
        rw [hcond]
        simp only [if_true, List.length_cons]
        omega

/-- C4: the operations at structural boundaries are silently rejected as
no-ops leaving the whole history (Document and stacks) unchanged — deleting
when at most one layer remains, moving a layer whose id is absent, moving a
layer to an out-of-range index, undo with an empty past, and redo with an
empty future — and deleteLayer never takes a Document with unique layer ids
below one layer. -/
theorem C4_boundary_noops (h : HistoryState) (layerId : String)
    (dir : MoveDir) :
    (h.present.layers.length ≤ 1 → deleteLayer h layerId = h) ∧
    (h.present.layers.findIdx? (fun l => l.id = layerId) = none →
      moveLayer h layerId dir = h) ∧
    (∀ i, h.present.layers.findIdx? (fun l => l.id = layerId) = some i →
      (moveTargetIndex dir i < 0 ∨
        (h.present.layers.length : ℤ) ≤ moveTargetIndex dir i) →
      moveLayer h layerId dir = h) ∧
    (h.past = [] → undo h = h) ∧
    (h.future = [] → redo h = h) ∧
    ((h.present.layers.map Layer.id).Nodup → 1 ≤ h.present.layers.length →
      1 ≤ (deleteLayer h layerId).present.layers.length) := by
  refine ⟨?_, ?_, ?_, ?_, ?_, ?_⟩
  · intro hle
    simp [deleteLayer, hle]
  · intro hnone
    simp [moveLayer, hnone]
  · intro i hsome hout
    unfold moveLayer
    rw [hsome]
    simp only [if_pos hout]
  · intro hp
    unfold undo
    rw [hp]
    rfl
  · intro hf
    unfold redo
    rw [hf]
  · intro hnodup hone
    unfold deleteLayer
    by_cases hle : h.present.layers.length ≤ 1
    · simpa [hle] using hone
    · have hfil := length_le_filter_id_ne layerId h.present.layers hnodup
      simp only [if_neg hle, pushToHistory]
      omega

/-- Witness for C4 at the initial history (one layer, empty stacks) and at a
two-layer history where the top layer cannot move further up. -/
theorem C4_boundary_noops_witness :
    deleteLayer initialHistory "layer-1" = initialHistory ∧
    moveLayer initialHistory "nope" MoveDir.up = initialHistory ∧
    moveLayer initialHistory "layer-1" MoveDir.up = initialHistory ∧
    undo initialHistory = initialHistory ∧
    redo initialHistory = initialHistory ∧
    1 ≤ (deleteLayer initialHistory "layer-1").present.layers.length :=
  ⟨(C4_boundary_noops initialHistory "layer-1" MoveDir.up).1 (by decide),
   (C4_boundary_noops initialHistory "nope" MoveDir.up).2.1 (by decide),
   (C4_boundary_noops initialHistory "layer-1" MoveDir.up).2.2.1 0 (by decide)
     (by decide),
   (C4_boundary_noops initialHistory "layer-1" MoveDir.up).2.2.2.1 rfl,
   (C4_boundary_noops initialHistory "layer-1" MoveDir.up).2.2.2.2.1 rfl,
   (C4_boundary_noops initialHistory "layer-1" MoveDir.up).2.2.2.2.2
     (by decide) (by decide)⟩

/-- A tall thin rect far down the canvas: its presence forces the canvas
height (but not width) above the minimum. -/
def tallObj : CanvasObject :=
  { id := "obj-tall", shape := Shape.rect 10 100 none none
    transform := ⟨0, 5000, 0, 1, 1⟩, style := commitBaseStyle
    visible := true, locked := false, selected := false }

/-- A small rect far to the right: its presence forces the canvas width (but
not height) above the minimum. -/
def wideObj : CanvasObject :=
  { id := "obj-wide", shape := Shape.rect 10 10 none none
    transform := ⟨5000, 0, 0, 1, 1⟩, style := commitBaseStyle
    visible := true, locked := false, selected := false }

/-- C8 counterexample: with only `tallObj` present the canvas grows to
5100 by 6200; after `tallObj` is removed and only `wideObj` remains, the
recomputation needs more width, the resize branch fires, and it installs
6110 by 5100 — the height SHRINKS from 6200 to 5100, refuting "the new height
is at least its previous value". -/
theorem C8_counterexample :
    (updateCanvasSize [tallObj] [] ⟨4000, 4000⟩ = ⟨5100, 6200⟩) ∧
    (updateCanvasSize [wideObj] [] (updateCanvasSize [tallObj] [] ⟨4000, 4000⟩)
      = ⟨6110, 5100⟩) ∧
    (updateCanvasSize [wideObj] []
        (updateCanvasSize [tallObj] [] ⟨4000, 4000⟩)).height <
      (updateCanvasSize [tallObj] [] ⟨4000, 4000⟩).height := by
  have h1 : updateCanvasSize [tallObj] [] ⟨4000, 4000⟩ = ⟨5100, 6200⟩ := by
    norm_num [updateCanvasSize, getBoundingBox, tallObj, commitBaseStyle,
      min_def, max_def]
  have h2 : updateCanvasSize [wideObj] [] (⟨5100, 6200⟩ : Size)
      = ⟨6110, 5100⟩ := by
    norm_num [updateCanvasSize, getBoundingBox, wideObj, commitBaseStyle,
      min_def, max_def]
  refine ⟨h1, by rw [h1, h2], by rw [h1, h2]; norm_num⟩

/-- C8 amended: each dimension computed by a canvas auto-expansion step is at
least the 4000 minimum, and the stored size is replaced only when the new
width exceeds the stored width or the new height exceeds the stored height —
but both dimensions are replaced together then, so the dimension that did not
trigger the resize may shrink; size monotonicity per dimension does not
hold. -/
theorem C8_amended_growth (objects : List CanvasObject)
    (pointsToCheck : List Point) (canvasSize : Size)
    (hw : 4000 ≤ canvasSize.width) (hh : 4000 ≤ canvasSize.height) :
    4000 ≤ (updateCanvasSize objects pointsToCheck canvasSize).width ∧
    4000 ≤ (updateCanvasSize objects pointsToCheck canvasSize).height ∧
    (updateCanvasSize objects pointsToCheck canvasSize = canvasSize ∨
      canvasSize.width <
          (updateCanvasSize objects pointsToCheck canvasSize).width ∨
      canvasSize.height <
          (updateCanvasSize objects pointsToCheck canvasSize).height) := by
  unfold updateCanvasSize
  dsimp only
  split
  · next hcond =>
      refine ⟨le_max_left _ _, le_max_left _ _, ?_⟩
      rcases hcond with hcw | hch
      · exact Or.inr (Or.inl hcw)
      · exact Or.inr (Or.inr hch)
  · exact ⟨hw, hh, Or.inl rfl⟩

/-- Witness for the amended C8 at a concrete input: no objects, no points,
the initial 4000 by 4000 size. -/
theorem C8_amended_growth_witness :
    4000 ≤ (updateCanvasSize [] [] ⟨4000, 4000⟩).width ∧
    4000 ≤ (updateCanvasSize [] [] ⟨4000, 4000⟩).height :=
  ⟨(C8_amended_growth [] [] ⟨4000, 4000⟩ (by norm_num) (by norm_num)).1,
   (C8_amended_growth [] [] ⟨4000, 4000⟩ (by norm_num) (by norm_num)).2.1⟩

/-- The Rect object committed by the (0,0)-to-(10,10) rect gesture once
`addObject` assigns it the id `obj-n`. -/
def rectTen (n : ℕ) : CanvasObject :=
  { id := "obj-" ++ toString n
    shape := Shape.rect 10 10 none none
    transform := ⟨0, 0, 0, 1, 1⟩
    style := commitBaseStyle
    visible := true, locked := false, selected := false }

/-- C6: a rect gesture from (0,0) to (3,3) commits nothing and leaves the
whole history unchanged; a gesture from (0,0) to (10,10) commits exactly one
Rect of width 10 and height 10 appended to the active layer; in general a
shape gesture commits an object exactly when the bounding dimension
`max width height` exceeds the 5-unit threshold. -/
theorem C6_rect_gesture_threshold :
    (∀ (h : HistoryState) (n : ℕ), handleMouseUpRect h n ⟨0, 0⟩ ⟨3, 3⟩ = h) ∧
    (∀ (h : HistoryState) (n : ℕ),
      (h.present.layers.find? fun l =>
          l.id = h.present.activeLayerId).isSome →
      (handleMouseUpRect h n ⟨0, 0⟩ ⟨10, 10⟩).present.layers =
        h.present.layers.map fun layer =>
          if layer.id = h.present.activeLayerId
          then { layer with objects := layer.objects ++ [rectTen n] }
          else layer) ∧
    (∀ s e : Point,
      (rectMouseUp s e).isSome ↔ 5 < max |e.x - s.x| |e.y - s.y|) := by
  have hnone : rectMouseUp ⟨0, 0⟩ ⟨3, 3⟩ = none := by
    norm_num [rectMouseUp]
  have hsome : rectMouseUp ⟨0, 0⟩ ⟨10, 10⟩ =
      some { shape := Shape.rect 10 10 none none
             transform := ⟨0, 0, 0, 1, 1⟩
             style := commitBaseStyle
             visible := true, locked := false, selected := false } := by
    norm_num [rectMouseUp, min_def]
  refine ⟨?_, ?_, ?_⟩
  · intro h n
    unfold handleMouseUpRect
    rw [hnone]
  · intro h n hactive
    obtain ⟨l, hl⟩ := Option.isSome_iff_exists.mp hactive
    unfold handleMouseUpRect
    rw [hsome]
    unfold addObject
    rw [hl]
    simp [pushToHistory, rectTen]
  · intro s e
    unfold rectMouseUp
    split
    · next hcond => simpa [lt_max_iff] using hcond
    · next hcond => simpa [lt_max_iff] using hcond

/-- Witness for C6 at the initial history: the (0,0)-to-(10,10) gesture
appends one `obj-1` Rect to the single initial layer. -/
theorem C6_rect_gesture_threshold_witness :
    (handleMouseUpRect initialHistory 1 ⟨0, 0⟩ ⟨10, 10⟩).present.layers =
      initialHistory.present.layers.map fun layer =>
        if layer.id = initialHistory.present.activeLayerId
        then { layer with objects := layer.objects ++ [rectTen 1] }
        else layer :=
  C6_rect_gesture_threshold.2.1 initialHistory 1 (by decide)

theorem foldl_append_singleton {α β : Type} (f : α → β) (l : List α)
    (acc : List β) :
    l.foldl (fun path i => path ++ [f i]) acc = acc ++ l.map f := by
  induction l generalizing acc with
  | nil => simp
  | cons x xs ih => simp [ih]

/-- C7: generateSmoothCurve agrees with the spec's description of the
Catmull-Rom walk on every input — empty for fewer than 2 points, a single
line segment (move then line) for exactly 2, and for n at least 3 one cubic
segment per consecutive index pair with the stated neighbour fallbacks and
the `(p2-p0)/6`, `(p3-p1)/6` control points. -/
theorem C7_generateSmoothCurve_matches_spec (points : List Point) :
    generateSmoothCurve points = smoothCurveSpec points := by
  unfold generateSmoothCurve smoothCurveSpec
  by_cases h2 : points.length < 2
  · rw [if_pos h2, if_pos h2]
  · rw [if_neg h2, if_neg h2]
    by_cases he : points.length = 2
    · rw [if_pos he, if_pos he]
    · rw [if_neg he, if_neg he]
      rw [foldl_append_singleton, List.singleton_append]
      congr 1
      apply List.map_congr_left
      intro i hi
      have hi' : i < points.length - 1 := List.mem_range.mp hi
      have hp0 : (if i = 0 then points.getD i originPoint
          else points.getD (i - 1) originPoint) =
          points.getD (i - 1) originPoint := by
        by_cases h0 : i = 0
        · rw [if_pos h0, h0]
        · rw [if_neg h0]
      have hp3 : (if i + 2 < points.length then points.getD (i + 2) originPoint
          else points.getD (i + 1) originPoint) =
          points.getD (i + 2) (points.getD (i + 1) originPoint) := by
        by_cases hin : i + 2 < points.length
        · rw [if_pos hin, List.getD_eq_getElem _ _ hin,
            List.getD_eq_getElem _ _ hin]
        · rw [if_neg hin,
            @List.getD_eq_default _ points (points.getD (i + 1) originPoint)
              (i + 2) (by omega)]
      rw [hp0, hp3]

/-- A fold whose step function ignores its accumulator returns the image of
the last list element (or the initial value for the empty list). -/
theorem foldl_const_fun {α β : Type} (g : α → β) (init : β) (l : List α) :
    l.foldl (fun _ o => g o) init = (l.getLast?.map g).getD init := by
  induction l generalizing init with
  | nil => rfl
  | cons o rest ih =>
      rw [List.foldl_cons, ih (g o)]
      cases rest with
      | nil => rfl
      | cons o2 rest2 => rfl

/-- What the multi-selection style update actually does: only the state
computed for the LAST selected object survives the event — every earlier
selected object's queued update is overwritten, because each `updateObject`
call read the same stale render-time Document. -/
theorem updateStyleOpacity_last_wins (s : CanvasState)
    (selected : List CanvasObject) (value : ℚ) :
    updateStyleOpacity s selected value =
      (selected.getLast?.map fun obj =>
          updateObject s obj.id
            { transform := none
              style := some { obj.style with opacity := value }
              visible := none }).getD s := by
  unfold updateStyleOpacity
  exact foldl_const_fun
    (fun obj =>
      updateObject s obj.id
        { transform := none
          style := some { obj.style with opacity := value }
          visible := none })
    s selected

/-- First object of the concrete two-object selection (a rect, opacity 1). -/
def c3ObjA : CanvasObject :=
  { id := "obj-1", shape := Shape.rect 10 10 none none
    transform := ⟨0, 0, 0, 1, 1⟩, style := commitBaseStyle
    visible := true, locked := false, selected := false }

/-- Second object of the concrete two-object selection (a circle,
opacity 1). -/
def c3ObjB : CanvasObject :=
  { id := "obj-2", shape := Shape.circle 5
    transform := ⟨50, 50, 0, 1, 1⟩, style := commitBaseStyle
    visible := true, locked := false, selected := false }

/-- A Document with the two objects on one layer and both selected. -/
def c3State : CanvasState :=
  { layers := [{ id := "layer-1", name := "Layer 1", visible := true,
                 locked := false, objects := [c3ObjA, c3ObjB] }]
    activeLayerId := "layer-1"
    selectedObjectIds := ["obj-1", "obj-2"]
    zoom := 1
    pan := ⟨100, 100⟩
    tool := Tool.select
    canvasSize := ⟨4000, 4000⟩ }

/-- C3: with obj-1 and obj-2 both selected and both at opacity 1, the
updateStyle opacity-to-0 event leaves obj-1 at opacity 1 and changes only
obj-2 — the last selected object's queued present overwrites the first's —
so the new value is NOT applied to every selected object as the claim
states. -/
theorem C3_counterexample :
    (updateStyleOpacity c3State (selectedObjectsOf c3State) 0).layers =
      [{ id := "layer-1", name := "Layer 1", visible := true, locked := false,
         objects := [c3ObjA,
           { c3ObjB with style := { c3ObjB.style with opacity := 0 } }] }] ∧
    ¬ (updateStyleOpacity c3State (selectedObjectsOf c3State) 0).layers =
        c3State.layers.map fun layer =>
          { layer with objects := layer.objects.map fun obj =>
              if obj.id ∈ c3State.selectedObjectIds
              then { obj with style := { obj.style with opacity := (0 : ℚ) } }
              else obj } := by
  constructor
  · decide
  · decide

end VectorStudio
